import Mathlib

/-!
Shallow embedding of the conversation store in
`src/common/stores/chat/store-chats.ts`: the conversation/message/fragment
data model, the token-accounting functions, the store mutation operations,
and the persistence `partialize` / `onRehydrateStorage` hooks.

Machine integers of the source are modelled as `Int`; JavaScript's
`x || 0` on a number is modelled explicitly (falsy number = 0).
Side effects are made explicit: `Date.now()` becomes a `now : Int`
parameter, the ambient LLM configuration becomes a `ChatEnv` record, id
generators become explicit fresh-id parameters, and `AbortController`
handles become `Option Nat` values returned by the operations that invoke
cancellation.

Types that live outside the provided sources (`chat.message.ts`,
`chat.conversation.ts`, `chat.fragments.ts`) are modelled from the spec;
each such definition carries a doc comment saying so.
-/

/-- Modelled from the spec: the data-reference payload of an image-reference
part (`chat.fragments.ts`, not under src/): a reference-type discriminant
and, for the `dblob` reference type, an asset identifier; the legacy field
name `dblobId` is kept so the rehydration rename can be expressed. -/
structure DDataRef where
  reftype : String
  dblobAssetId : Option String
  dblobId : Option String
deriving DecidableEq, Repr

/-- Modelled from the spec: the payload variants of a fragment part
(`chat.fragments.ts`, not under src/): text, placeholder (`pt = 'ph'`),
image reference, and error. -/
inductive DMessagePart where
  | text (pText : String)
  | ph (pText : String)
  | imageRef (dataRef : DDataRef)
  | errorPart (errorText : String)
deriving DecidableEq, Repr

/-- Modelled from the spec: a content unit of a message
(`chat.fragments.ts`, not under src/): an opaque identifier `fId` (the
empty string models an absent id), a discriminant tag `ft` (`"content"`
for content fragments), and a variant payload. -/
structure DMessageFragment where
  fId : String
  ft : String
  part : DMessagePart
deriving DecidableEq, Repr

/-- Modelled from the spec: `isContentFragment` (`chat.fragments.ts`, not
under src/) tests the fragment's discriminant tag. -/
def isContentFragment (f : DMessageFragment) : Bool :=
  f.ft == "content"

/-- Modelled from the spec: `isImageRefPart` (`chat.fragments.ts`, not
under src/) tests for the image-reference part variant. -/
def isImageRefPart (p : DMessagePart) : Bool :=
  match p with
  | .imageRef _ => true
  | _ => false

/-- Modelled from the spec: `createErrorContentFragment`
(`chat.fragments.ts`, not under src/) builds a fresh content fragment
holding an error part; the fresh fragment id is passed explicitly. -/
def createErrorContentFragment (freshFId : String) (errorText : String) : DMessageFragment :=
  { fId := freshFId, ft := "content", part := .errorPart errorText }

/-- Modelled from the spec: a message (`chat.message.ts`, not under src/):
an identifier, an ordered fragment list, a cached token count (0 meaning
unknown), the pending/incomplete streaming flag, and timestamps. -/
structure DMessage where
  id : String
  fragments : List DMessageFragment
  tokenCount : Int
  pendingIncomplete : Bool
  created : Int
  updated : Option Int
deriving DecidableEq, Repr

/-- Modelled from the spec: a conversation (`chat.conversation.ts`, not
under src/): an identifier, an ordered message list, persona and title
fields, the aggregate token-count cache, timestamps, and the transient
cancellation handle (an opaque `Nat`, `none` when no operation is in
flight). -/
structure DConversation where
  id : String
  messages : List DMessage
  systemPurposeId : Option String
  autoTitle : Option String
  userTitle : Option String
  userSymbol : Option String
  tokenCount : Int
  created : Int
  updated : Int
  abortController : Option Nat
deriving DecidableEq, Repr

/-- The store state: the ordered conversation list (`ChatState`). -/
structure ChatState where
  conversations : List DConversation
deriving DecidableEq, Repr

/-- The ambient environment of the token accountant: `getChatLLMId` (the
currently-configured default model id, `none` when unset), the model
registry lookup `findLLMOrThrow` (`none` models the throwing path), and
the external token estimator `estimateTokensForFragments` (the model
descriptor is opaque, kept as the looked-up string). -/
structure ChatEnv where
  chatLLMId : Option String
  findLLM : String → Option String
  estimate : List DMessageFragment → String → Int

/-- `updateMessageTokenCount` (store-chats.ts lines 396-414): recompute the
message's cached token count when forced or when the cache is falsy; with
no configured model the count becomes 0; a failing registry lookup also
yields 0. The TS function mutates the message and returns the count; the
embedding returns the updated message, whose `tokenCount` is that count. -/
def updateMessageTokenCount (env : ChatEnv) (message : DMessage) (llmId : Option String)
    (forceUpdate : Bool) : DMessage :=
  if forceUpdate || message.tokenCount == 0 then
    match llmId with
    | none => { message with tokenCount := 0 }
    | some i =>
      match env.findLLM i with
      | some dllm => { message with tokenCount := env.estimate message.fragments dllm }
      | none => { message with tokenCount := 0 }
  else message

/-- `updateMessagesTokenCounts` (store-chats.ts lines 388-393): update every
message's count with the single configured model id and return
`3 + reduce (4 + count + sum, 0)` together with the updated messages. -/
def updateMessagesTokenCounts (env : ChatEnv) (messages : List DMessage)
    (forceUpdate : Bool) : List DMessage × Int :=
  let updated := messages.map (fun m => updateMessageTokenCount env m env.chatLLMId forceUpdate)
  (updated, 3 + updated.foldl (fun sum m => 4 + m.tokenCount + sum) 0)

/-- One step of the token-count reduce `(sum, m) => sum + 4 + m.tokenCount || 0`
(store-chats.ts lines 188, 200, 229): JavaScript `|| 0` maps a falsy
(zero) number to 0, which is the identity here. -/
def tokenReduceStep (sum : Int) (tc : Int) : Int :=
  let v := sum + 4 + tc
  if v = 0 then 0 else v

/-- The conversation-level fold `messages.reduce((sum, m) => sum + 4 + m.tokenCount || 0, 3)`
used by `appendMessage`, `deleteMessage` and `editMessage`. -/
def tokenFold (messages : List DMessage) : Int :=
  messages.foldl (fun sum m => tokenReduceStep sum m.tokenCount) 3

/-- `getConversation` (store-chats.ts lines 421-423). -/
def getConversation (state : ChatState) (conversationId : Option String) : Option DConversation :=
  match conversationId with
  | none => none
  | some cid => state.conversations.find? (fun c => c.id == cid)

/-- `_editConversation` (store-chats.ts lines 138-148): replace the matching
conversation by the patched record, leave the others untouched. Each
caller's patch is supplied as the full record transformer `f`. -/
def editConversationWith (state : ChatState) (conversationId : String)
    (f : DConversation → DConversation) : ChatState :=
  { conversations := state.conversations.map (fun c =>
      if c.id == conversationId then f c else c) }

/-- `setMessages` (store-chats.ts lines 164-176): wholesale message
replacement, auto-title cleared when the new list is empty, aggregate
token count from `updateMessagesTokenCounts(newMessages, false, ...)`,
timestamp updated, cancellation handle cleared. -/
def setMessages (env : ChatEnv) (state : ChatState) (conversationId : String)
    (newMessages : List DMessage) (now : Int) : ChatState :=
  editConversationWith state conversationId (fun c =>
    let r := updateMessagesTokenCounts env newMessages false
    { c with
      messages := r.fst
      autoTitle := if newMessages.length != 0 then c.autoTitle else none
      tokenCount := r.snd
      updated := now
      abortController := none })

/-- `appendMessage` (store-chats.ts lines 178-191): force-recompute the
incoming message's count unless it is pending, append, refold, stamp. -/
def appendMessage (env : ChatEnv) (state : ChatState) (conversationId : String)
    (message : DMessage) (now : Int) : ChatState :=
  editConversationWith state conversationId (fun c =>
    let message :=
      if message.pendingIncomplete then message
      else updateMessageTokenCount env message env.chatLLMId true
    let messages := c.messages ++ [message]
    { c with messages := messages, tokenCount := tokenFold messages, updated := now })

/-- `deleteMessage` (store-chats.ts lines 193-203): filter out the id,
refold the cached counts, stamp the timestamp. -/
def deleteMessage (state : ChatState) (conversationId : String) (messageId : String)
    (now : Int) : ChatState :=
  editConversationWith state conversationId (fun c =>
    let messages := c.messages.filter (fun m => m.id != messageId)
    { c with messages := messages, tokenCount := tokenFold messages, updated := now })

/-- The per-message body of `editMessage` (store-chats.ts lines 208-225):
a non-matching message is returned as-is; the matching one is patched,
optionally stamped, optionally stripped of its pending flag, and then
force-recomputed when (now) not pending. The claim-relevant call sites
patch only the fragment list, so the patch is embedded as
`update : DMessage → Option (List DMessageFragment)` with `none` standing
for the empty patch `{}`. -/
def editMessageTransform (env : ChatEnv) (messageId : String)
    (update : DMessage → Option (List DMessageFragment))
    (removePendingState : Bool) (touchUpdated : Bool) (now : Int) (m : DMessage) : DMessage :=
  if m.id != messageId then m
  else
    let m1 := match update m with
      | some fr => { m with fragments := fr }
      | none => m
    let m2 := if touchUpdated then { m1 with updated := some now } else m1
    let m3 := if removePendingState then { m2 with pendingIncomplete := false } else m2
    if m3.pendingIncomplete then m3
    else updateMessageTokenCount env m3 env.chatLLMId true

/-- `editMessage` (store-chats.ts lines 205-232): map the per-message
transform over the message list, refold the conversation count, and stamp
the conversation timestamp only when `touchUpdated`. -/
def editMessage (env : ChatEnv) (state : ChatState) (conversationId : String)
    (messageId : String) (update : DMessage → Option (List DMessageFragment))
    (removePendingState : Bool) (touchUpdated : Bool) (now : Int) : ChatState :=
  editConversationWith state conversationId (fun c =>
    let messages := c.messages.map
      (editMessageTransform env messageId update removePendingState touchUpdated now)
    { c with
      messages := messages
      tokenCount := tokenFold messages
      updated := if touchUpdated then now else c.updated })

/-- `replaceMessageFragment` (store-chats.ts lines 244-262): via
`editMessage`; when the fragment id is not found the patch is empty (the
error is only logged); otherwise the fragment at the found index is
replaced by a fresh copy of the new fragment. -/
def replaceMessageFragment (env : ChatEnv) (state : ChatState) (conversationId : String)
    (messageId : String) (fragmentId : String) (newFragment : DMessageFragment)
    (removePendingState : Bool) (touchUpdated : Bool) (now : Int) : ChatState :=
  editMessage env state conversationId messageId (fun message =>
    match message.fragments.findIdx? (fun f => f.fId == fragmentId) with
    | none => none
    | some fragmentIndex =>
      some (message.fragments.mapIdx (fun index fragment =>
        if index == fragmentIndex then newFragment else fragment)))
    removePendingState touchUpdated now

/-- Modelled from the spec: `createDConversation` (`chat.conversation.ts`,
not under src/) constructs a new empty conversation, optionally seeded
with a persona id; its token-count cache starts at 0 (nothing computed)
and no operation is in flight. The fresh id is passed explicitly. -/
def createDConversation (freshId : String) (personaId : Option String) (now : Int) : DConversation :=
  { id := freshId
    messages := []
    systemPurposeId := personaId
    autoTitle := none
    userTitle := none
    userSymbol := none
    tokenCount := 0
    created := now
    updated := now
    abortController := none }

/-- Messages up to and including the first one carrying the given id. -/
def takeThrough (messageId : String) : List DMessage → List DMessage
  | [] => []
  | m :: rest => if m.id == messageId then [m] else m :: takeThrough messageId rest

/-- Modelled from the spec: `duplicateCConversation`
(`chat.conversation.ts`, not under src/) produces a structural duplicate
containing all messages up to and including `lastMessageId` (all messages
when `none`), with freshly generated conversation and message identifiers
(supplied explicitly) and no in-flight operation. -/
def duplicateCConversation (freshCId : String) (freshMId : Nat → String)
    (c : DConversation) (lastMessageId : Option String) : DConversation :=
  let kept := match lastMessageId with
    | none => c.messages
    | some mid => takeThrough mid c.messages
  { c with
    id := freshCId
    messages := kept.enum.map (fun p => { p.2 with id := freshMId p.1 })
    abortController := none }

/-- `branchConversation` (store-chats.ts lines 96-109): `none` when the
source conversation is not found; otherwise the duplicate (up to the
given message id, `mId ?? undefined`) goes to the front of the list and
its id is returned. -/
def branchConversation (freshCId : String) (freshMId : Nat → String)
    (state : ChatState) (conversationId : String) (messageId : Option String) :
    ChatState × Option String :=
  match state.conversations.find? (fun c => c.id == conversationId) with
  | none => (state, none)
  | some c =>
    let branched := duplicateCConversation freshCId freshMId c messageId
    ({ conversations := branched :: state.conversations }, some branched.id)

/-- `importConversation` (store-chats.ts lines 74-94). Returns the new
state, the cancelled handle of a clashing existing conversation (the
`abort()` call, `none` when there was none to cancel), and the returned
conversation id. When a clash exists and `preventClash` is set the
incoming conversation gets the fresh id; the message token counts are
recomputed with `forceUpdate = true`; the conversation goes to the front
and every prior conversation with the (possibly reassigned) id is
filtered out. -/
def importConversation (env : ChatEnv) (freshId : String) (state : ChatState)
    (conversation : DConversation) (preventClash : Bool) :
    ChatState × Option Nat × String :=
  let conversations := state.conversations
  let existing := conversations.find? (fun c => c.id == conversation.id)
  let aborted := existing.bind (fun c => c.abortController)
  let conversation :=
    if existing.isSome && preventClash then { conversation with id := freshId }
    else conversation
  let r := updateMessagesTokenCounts env conversation.messages true
  let conversation := { conversation with messages := r.fst, tokenCount := r.snd }
  ({ conversations := conversation :: conversations.filter (fun c => c.id != conversation.id) },
   aborted, conversation.id)

/-- `deleteConversations` (store-chats.ts lines 111-133). Returns the new
state, the cancelled in-flight handles of the named conversations, and
the id of the conversation now occupying the first deleted conversation's
position (index clamped to 0 when out of range). When removal empties the
list, a fresh conversation (optionally seeded with the fallback persona)
is created. -/
def deleteConversations (freshId : String) (newConversationPersonaId : Option String)
    (now : Int) (state : ChatState) (conversationIds : List String) :
    ChatState × List Nat × String :=
  let conversations := state.conversations
  let cIndex : Int := match conversationIds with
    | [] => -1
    | cid0 :: _ =>
      match conversations.findIdx? (fun c => c.id == cid0) with
      | some i => (i : Int)
      | none => -1
  let aborted := conversationIds.filterMap (fun cid =>
    (conversations.find? (fun c => c.id == cid)).bind (fun c => c.abortController))
  let newConversations := conversations.filter (fun c => !(conversationIds.contains c.id))
  let newConversations :=
    if newConversations.isEmpty then [createDConversation freshId newConversationPersonaId now]
    else newConversations
  let idx : Nat :=
    if 0 ≤ cIndex ∧ cIndex < (newConversations.length : Int) then cIndex.toNat else 0
  ({ conversations := newConversations }, aborted,
   ((newConversations.get? idx).map (fun c => c.id)).getD "")

/-- `partialize` (store-chats.ts lines 336-342): strip the transient
cancellation handle from every conversation before serialization. -/
def partialize (state : ChatState) : ChatState :=
  { conversations := state.conversations.map (fun c => { c with abortController := none }) }

/-- First rehydration pass over one fragment (store-chats.ts lines
355-365): rename a legacy `dblobId` on a content image-reference part to
`dblobAssetId`, then assign a fresh id (from the supply at counter `n`)
when `fId` is missing. -/
def fixupFragment (agiId : Nat → String) (n : Nat) (f : DMessageFragment) :
    DMessageFragment × Nat :=
  let f :=
    match f.part with
    | .imageRef ref =>
      if isContentFragment f && ref.reftype == "dblob" && ref.dblobId.isSome then
        { f with part := .imageRef { ref with dblobAssetId := ref.dblobId, dblobId := none } }
      else f
    | _ => f
  if f.fId == "" then ({ f with fId := agiId n }, n + 1) else (f, n)

/-- First rehydration pass over a fragment list, threading the id-supply
counter. -/
def fixupFragmentList (agiId : Nat → String) (n : Nat) :
    List DMessageFragment → List DMessageFragment × Nat
  | [] => ([], n)
  | f :: rest =>
    let r := fixupFragment agiId n f
    let rr := fixupFragmentList agiId r.snd rest
    (r.fst :: rr.fst, rr.snd)

/-- One step of the second rehydration pass (store-chats.ts lines 367-371):
a content fragment whose part is a placeholder (`pt = 'ph'`) becomes a
fresh error content fragment noting non-completion; any other fragment is
kept. -/
def replacePhFragment (agiId : Nat → String) (n : Nat) (f : DMessageFragment) :
    DMessageFragment × Nat :=
  match isContentFragment f, f.part with
  | true, .ph pText =>
    (createErrorContentFragment (agiId n) (pText ++ " (did not complete)"), n + 1)
  | _, _ => (f, n)

/-- Second rehydration pass over a fragment list, threading the id-supply
counter. -/
def replacePhFragments (agiId : Nat → String) (n : Nat) :
    List DMessageFragment → List DMessageFragment × Nat
  | [] => ([], n)
  | f :: rest =>
    let r := replacePhFragment agiId n f
    let rr := replacePhFragments agiId r.snd rest
    (r.fst :: rr.fst, rr.snd)

/-- Rehydration of one message (store-chats.ts lines 353-375): both
fragment passes, then strip the legacy pending flag. -/
def rehydrateMessage (agiId : Nat → String) (n : Nat) (m : DMessage) : DMessage × Nat :=
  let r1 := fixupFragmentList agiId n m.fragments
  let r2 := replacePhFragments agiId r1.snd r1.fst
  ({ m with fragments := r2.fst, pendingIncomplete := false }, r2.snd)

/-- Rehydration of a message list, threading the id-supply counter. -/
def rehydrateMessages (agiId : Nat → String) (n : Nat) :
    List DMessage → List DMessage × Nat
  | [] => ([], n)
  | m :: rest =>
    let r := rehydrateMessage agiId n m
    let rr := rehydrateMessages agiId r.snd rest
    (r.fst :: rr.fst, rr.snd)

/-- Rehydration of one conversation (store-chats.ts lines 349-376):
re-attach a `null` cancellation handle and fix up every message. -/
def rehydrateConversation (agiId : Nat → String) (n : Nat) (c : DConversation) :
    DConversation × Nat :=
  let r := rehydrateMessages agiId n c.messages
  ({ c with abortController := none, messages := r.fst }, r.snd)

/-- Rehydration of the conversation list, threading the id-supply counter. -/
def rehydrateConversations (agiId : Nat → String) (n : Nat) :
    List DConversation → List DConversation × Nat
  | [] => ([], n)
  | c :: rest =>
    let r := rehydrateConversation agiId n c
    let rr := rehydrateConversations agiId r.snd rest
    (r.fst :: rr.fst, rr.snd)

/-- `onRehydrateStorage` (store-chats.ts lines 345-377): the post-load
repair pass over the whole state; `agiId` is the external id generator. -/
def onRehydrateStorage (agiId : Nat → String) (state : ChatState) : ChatState :=
  { conversations := (rehydrateConversations agiId 0 state.conversations).fst }

/-- Decidable check: every conversation's cancellation handle is cleared. -/
def handlesCleared (state : ChatState) : Bool :=
  state.conversations.all (fun c => c.abortController == none)

/-- Decidable check: every fragment of every message of every conversation
carries a non-empty `fId`. -/
def fragmentIdsNonEmpty (state : ChatState) : Bool :=
  state.conversations.all (fun c =>
    c.messages.all (fun m => m.fragments.all (fun f => f.fId != "")))

/-- A single `appendMessage` or `deleteMessage` call on a fixed
conversation, with its `Date.now()` value. -/
inductive ChatMsgOp where
  | append (message : DMessage) (now : Int)
  | delete (messageId : String) (now : Int)
deriving DecidableEq, Repr

/-- Apply one `ChatMsgOp` to the store. -/
def applyMsgOp (env : ChatEnv) (conversationId : String) (state : ChatState) :
    ChatMsgOp → ChatState
  | .append m now => appendMessage env state conversationId m now
  | .delete mid now => deleteMessage state conversationId mid now

/-- Apply a sequence of `appendMessage`/`deleteMessage` calls in order. -/
def applyMsgOps (env : ChatEnv) (conversationId : String) :
    ChatState → List ChatMsgOp → ChatState
  | state, [] => state
  | state, op :: rest =>
    applyMsgOps env conversationId (applyMsgOp env conversationId state op) rest

/-! ### Helper lemmas -/

theorem tokenReduceStep_eq (s tc : Int) : tokenReduceStep s tc = s + 4 + tc := by
  simp only [tokenReduceStep]
  split <;> omega

theorem tokenFold_foldl (l : List DMessage) (a : Int) :
    l.foldl (fun sum m => tokenReduceStep sum m.tokenCount) a
      = a + (l.map (fun m => 4 + m.tokenCount)).sum := by
  induction l generalizing a with
  | nil => simp
  | cons m rest ih =>
    rw [List.foldl_cons, ih, tokenReduceStep_eq, List.map_cons, List.sum_cons]
    ring

theorem tokenFold_eq (l : List DMessage) :
    tokenFold l = 3 + (l.map (fun m => 4 + m.tokenCount)).sum :=
  tokenFold_foldl l 3

theorem sumFoldl_eq (l : List DMessage) (a : Int) :
    l.foldl (fun sum m => 4 + m.tokenCount + sum) a
      = a + (l.map (fun m => 4 + m.tokenCount)).sum := by
  induction l generalizing a with
  | nil => simp
  | cons m rest ih =>
    rw [List.foldl_cons, ih, List.map_cons, List.sum_cons]
    ring

theorem updateMessageTokenCount_id (env : ChatEnv) (m : DMessage) (llmId : Option String)
    (force : Bool) : (updateMessageTokenCount env m llmId force).id = m.id := by
  unfold updateMessageTokenCount
  repeat' split
  all_goals rfl

theorem updateMessageTokenCount_fragments (env : ChatEnv) (m : DMessage)
    (llmId : Option String) (force : Bool) :
    (updateMessageTokenCount env m llmId force).fragments = m.fragments := by
  unfold updateMessageTokenCount
  repeat' split
  all_goals rfl

theorem updateMessageTokenCount_updated (env : ChatEnv) (m : DMessage)
    (llmId : Option String) (force : Bool) :
    (updateMessageTokenCount env m llmId force).updated = m.updated := by
  unfold updateMessageTokenCount
  repeat' split
  all_goals rfl

theorem find?_map_editList (l : List DConversation) (conversationId : String)
    (f : DConversation → DConversation) (hf : ∀ c, (f c).id = c.id) :
    (l.map (fun c => if c.id == conversationId then f c else c)).find?
        (fun c => c.id == conversationId)
      = (l.find? (fun c => c.id == conversationId)).map f := by
  induction l with
  | nil => rfl
  | cons c rest ih =>
    by_cases h : c.id = conversationId
    · have hb : (c.id == conversationId) = true := beq_iff_eq.mpr h
      have hb' : ((f c).id == conversationId) = true := by rw [hf]; exact hb
      rw [List.map_cons, if_pos hb]
      simp [List.find?, hb, hb']
    · have hb : (c.id == conversationId) = false := by simp [h]
      rw [List.map_cons, if_neg (by simp [hb])]
      simp only [List.find?, hb]
      exact ih

theorem getConversation_editConversationWith (state : ChatState) (conversationId : String)
    (f : DConversation → DConversation) (hf : ∀ c, (f c).id = c.id) :
    getConversation (editConversationWith state conversationId f) (some conversationId)
      = (getConversation state (some conversationId)).map f := by
  simp only [getConversation, editConversationWith]
  exact find?_map_editList state.conversations conversationId f hf

theorem editConversationWith_inv (state : ChatState) (conversationId : String)
    (f : DConversation → DConversation) (P : DConversation → Prop)
    (hf : ∀ c, c.id = conversationId → P (f c)) :
    ∀ c' ∈ (editConversationWith state conversationId f).conversations,
      c'.id = conversationId → P c' := by
  intro c' hc' hcid
  simp only [editConversationWith, List.mem_map] at hc'
  obtain ⟨c0, _, rfl⟩ := hc'
  by_cases h : c0.id = conversationId
  · rw [if_pos (by simp [h])] at hcid ⊢
    exact hf c0 h
  · rw [if_neg (by simp [h])] at hcid
    exact absurd hcid h

/-! ### C8: token recomputation policy -/

/-- C8: a message's token count is recomputed only when forced or when the
cached value is falsy (the message is returned untouched otherwise); on
recomputation with no configured default model the count is set to 0; on
a failing model-registry lookup the count is set to 0; and under the
estimator's non-negativity contract a non-negative cached count can never
become negative. -/
theorem updateMessageTokenCount_recompute_policy (env : ChatEnv) (llmId : Option String)
    (i : String) (m : DMessage) (force : Bool) :
    (force = false → m.tokenCount ≠ 0 → updateMessageTokenCount env m llmId force = m)
    ∧ ((force = true ∨ m.tokenCount = 0) → llmId = none →
        (updateMessageTokenCount env m llmId force).tokenCount = 0)
    ∧ ((force = true ∨ m.tokenCount = 0) → llmId = some i → env.findLLM i = none →
        (updateMessageTokenCount env m llmId force).tokenCount = 0)
    ∧ ((∀ fr d, 0 ≤ env.estimate fr d) → 0 ≤ m.tokenCount →
        0 ≤ (updateMessageTokenCount env m llmId force).tokenCount) := by
  refine ⟨?_, ?_, ?_, ?_⟩
  · intro hf htc
    unfold updateMessageTokenCount
    rw [if_neg (by simp [hf, htc])]
  · intro hre hl
    subst hl
    unfold updateMessageTokenCount
    rw [if_pos (by rcases hre with h | h <;> simp [h])]
  · intro hre hl hfind
    subst hl
    unfold updateMessageTokenCount
    rw [if_pos (by rcases hre with h | h <;> simp [h])]
    simp [hfind]
  · intro hest htc
    unfold updateMessageTokenCount
    split
    · cases llmId with
      | none => simp
      | some j =>
        cases hj : env.findLLM j with
        | none => simp [hj]
        | some d => simp [hj, hest]
    · exact htc

def envW8 : ChatEnv :=
  { chatLLMId := none, findLLM := fun _ => none, estimate := fun _ _ => 2 }

def msgW8 : DMessage :=
  { id := "m", fragments := [], tokenCount := 5, pendingIncomplete := false,
    created := 0, updated := none }

/-- Witness for C8 at concrete inputs: a non-zero cache is reused without
forcing; a forced recomputation with no model, and one whose lookup
fails, both yield 0; the result is non-negative. -/
theorem updateMessageTokenCount_recompute_policy_witness :
    updateMessageTokenCount envW8 msgW8 none false = msgW8
    ∧ (updateMessageTokenCount envW8 msgW8 none true).tokenCount = 0
    ∧ (updateMessageTokenCount envW8 msgW8 (some "x") true).tokenCount = 0
    ∧ 0 ≤ (updateMessageTokenCount envW8 msgW8 (some "x") true).tokenCount :=
  ⟨(updateMessageTokenCount_recompute_policy envW8 none "x" msgW8 false).1 rfl (by decide),
   (updateMessageTokenCount_recompute_policy envW8 none "x" msgW8 true).2.1 (Or.inl rfl) rfl,
   (updateMessageTokenCount_recompute_policy envW8 (some "x") "x" msgW8 true).2.2.1
     (Or.inl rfl) rfl rfl,
   (updateMessageTokenCount_recompute_policy envW8 (some "x") "x" msgW8 true).2.2.2
     (fun fr d => by show (0:Int) ≤ 2; decide) (by decide)⟩

/-! ### C2: conversation token-count fold invariant -/

theorem applyMsgOp_tokenFold (env : ChatEnv) (conversationId : String) (state : ChatState)
    (op : ChatMsgOp) :
    ∀ c ∈ (applyMsgOp env conversationId state op).conversations, c.id = conversationId →
      c.tokenCount = 3 + (c.messages.map (fun m => 4 + m.tokenCount)).sum := by
  cases op with
  | append m now =>
    refine editConversationWith_inv state conversationId _ _ ?_
    intro c _
    exact tokenFold_eq _
  | delete mid now =>
    refine editConversationWith_inv state conversationId _ _ ?_
    intro c _
    exact tokenFold_eq _

theorem applyMsgOps_tokenFold_aux (env : ChatEnv) (conversationId : String) :
    ∀ (rest : List ChatMsgOp) (state : ChatState) (op : ChatMsgOp),
      ∀ c ∈ (applyMsgOps env conversationId
          (applyMsgOp env conversationId state op) rest).conversations,
        c.id = conversationId →
          c.tokenCount = 3 + (c.messages.map (fun m => 4 + m.tokenCount)).sum := by
  intro rest
  induction rest with
  | nil =>
    intro state op
    exact applyMsgOp_tokenFold env conversationId state op
  | cons op2 rest2 ih =>
    intro state op
    exact ih (applyMsgOp env conversationId state op) op2

/-- C2: immediately after each call of any non-empty sequence of
`appendMessage`/`deleteMessage` calls on a conversation, that
conversation's `tokenCount` equals `3 + Σ (4 + m.tokenCount)` over its
messages. -/
theorem chat_tokenCount_fold_invariant (env : ChatEnv) (conversationId : String)
    (state : ChatState) (ops : List ChatMsgOp) (hops : ops ≠ []) :
    ∀ c ∈ (applyMsgOps env conversationId state ops).conversations, c.id = conversationId →
      c.tokenCount = 3 + (c.messages.map (fun m => 4 + m.tokenCount)).sum := by
  cases ops with
  | nil => exact absurd rfl hops
  | cons op rest => exact applyMsgOps_tokenFold_aux env conversationId rest state op

def envW2 : ChatEnv :=
  { chatLLMId := none, findLLM := fun _ => none, estimate := fun _ _ => 0 }

def msgW2 : DMessage :=
  { id := "m", fragments := [], tokenCount := 5, pendingIncomplete := true,
    created := 0, updated := none }

def convW2 : DConversation :=
  { id := "c", messages := [], systemPurposeId := none, autoTitle := none, userTitle := none,
    userSymbol := none, tokenCount := 0, created := 0, updated := 0, abortController := none }

def stateW2 : ChatState := { conversations := [convW2] }

def convW2post : DConversation :=
  { convW2 with messages := [msgW2], tokenCount := 12, updated := 5 }

/-- Witness for C2: one `appendMessage` of a pending message with cached
count 5 yields conversation count 12 = 3 + (4 + 5). -/
theorem chat_tokenCount_fold_invariant_witness :
    convW2post.tokenCount = 3 + (convW2post.messages.map (fun m => 4 + m.tokenCount)).sum :=
  chat_tokenCount_fold_invariant envW2 "c" stateW2 [ChatMsgOp.append msgW2 5] (by decide)
    convW2post (by decide) (by decide)

/-! ### C10: deleteMessage with a missing message id -/

/-- C10: `deleteMessage` with a message id that does not occur in the
conversation leaves the message list unchanged but still stamps the
conversation's `updated` with the current time and recomputes its
`tokenCount` via the non-forcing fold, so the failed lookup is not a pure
no-op on the conversation record. -/
theorem deleteMessage_missing_id_frame (state : ChatState) (conversationId messageId : String)
    (now : Int) (c : DConversation)
    (h1 : getConversation state (some conversationId) = some c)
    (h2 : messageId ∉ c.messages.map (fun m => m.id)) :
    getConversation (deleteMessage state conversationId messageId now) (some conversationId)
      = some { c with
          tokenCount := 3 + (c.messages.map (fun m => 4 + m.tokenCount)).sum
          updated := now } := by
  have hfilter : c.messages.filter (fun m => m.id != messageId) = c.messages := by
    apply List.filter_eq_self.mpr
    intro m hm
    simp only [bne_iff_ne, ne_eq]
    intro he
    exact h2 (he ▸ List.mem_map_of_mem (fun m => m.id) hm)
  rw [deleteMessage]
  refine (getConversation_editConversationWith _ _ _ ?_).trans ?_
  · intro c0
    rfl
  · rw [h1, Option.map_some']
    simp only [hfilter, tokenFold_eq]

def convW10 : DConversation :=
  { id := "c", messages := [msgW8], systemPurposeId := none, autoTitle := none,
    userTitle := none, userSymbol := none, tokenCount := 12, created := 0, updated := 0,
    abortController := none }

def stateW10 : ChatState := { conversations := [convW10] }

/-- Witness for C10: deleting the absent id `"zz"` keeps the single cached
message but stamps `updated := 7` and refolds the count. -/
theorem deleteMessage_missing_id_frame_witness :
    getConversation (deleteMessage stateW10 "c" "zz" 7) (some "c")
      = some { convW10 with
          tokenCount := 3 + (convW10.messages.map (fun m => 4 + m.tokenCount)).sum
          updated := 7 } :=
  deleteMessage_missing_id_frame stateW10 "c" "zz" 7 convW10 (by decide) (by decide)

/-! ### C5: replaceMessageFragment with a missing fragment id -/

theorem findIdx?_fId_eq_none (fragmentId : String) (l : List DMessageFragment)
    (h : fragmentId ∉ l.map (fun f => f.fId)) :
    l.findIdx? (fun f => f.fId == fragmentId) = none := by
  rw [List.findIdx?_eq_none_iff]
  intro f hf
  simp only [beq_eq_false_iff_ne, ne_eq]
  intro he
  exact h (he ▸ List.mem_map_of_mem (fun f => f.fId) hf)

theorem editMessageTransform_not_matching (env : ChatEnv) (messageId : String)
    (upd : DMessage → Option (List DMessageFragment)) (rps tu : Bool) (now : Int)
    (m : DMessage) (h : m.id ≠ messageId) :
    editMessageTransform env messageId upd rps tu now m = m := by
  unfold editMessageTransform
  rw [if_pos (by simp [h])]

theorem editMessageTransform_fragments_of_none (env : ChatEnv) (messageId : String)
    (upd : DMessage → Option (List DMessageFragment)) (rps tu : Bool) (now : Int)
    (m : DMessage) (hupd : upd m = none) :
    (editMessageTransform env messageId upd rps tu now m).fragments = m.fragments := by
  unfold editMessageTransform
  split
  · rfl
  · rw [hupd]
    cases tu <;> cases rps <;> cases hmp : m.pendingIncomplete <;>
      dsimp only <;> simp [hmp, updateMessageTokenCount_fragments]

theorem editMessageTransform_updated_of_none (env : ChatEnv) (messageId : String)
    (upd : DMessage → Option (List DMessageFragment)) (rps tu : Bool) (now : Int)
    (m : DMessage) (hm : m.id = messageId) (hupd : upd m = none) :
    (editMessageTransform env messageId upd rps tu now m).updated
      = if tu then some now else m.updated := by
  unfold editMessageTransform
  rw [if_neg (by simp [hm]), hupd]
  cases tu <;> cases rps <;> cases hmp : m.pendingIncomplete <;>
    dsimp only <;> simp [hmp, updateMessageTokenCount_updated]

/-- C5: `replaceMessageFragment` with a fragment id that does not occur in
the target message leaves every message's fragment list unchanged (same
length and content), and the target message's `updated` timestamp is
changed only as `touchUpdated` dictates (non-target messages keep theirs
untouched). -/
theorem replaceMessageFragment_missing_fragment_frame (env : ChatEnv) (state : ChatState)
    (conversationId messageId fragmentId : String) (newFragment : DMessageFragment)
    (removePendingState touchUpdated : Bool) (now : Int) (c : DConversation)
    (h1 : getConversation state (some conversationId) = some c)
    (h2 : ∀ m ∈ c.messages, m.id = messageId → fragmentId ∉ m.fragments.map (fun f => f.fId)) :
    ((getConversation (replaceMessageFragment env state conversationId messageId fragmentId
          newFragment removePendingState touchUpdated now) (some conversationId)).map
        (fun c2 => c2.messages.map (fun m => m.fragments)))
      = some (c.messages.map (fun m => m.fragments))
    ∧ ((getConversation (replaceMessageFragment env state conversationId messageId fragmentId
          newFragment removePendingState touchUpdated now) (some conversationId)).map
        (fun c2 => c2.messages.map (fun m => m.updated)))
      = some (c.messages.map (fun m =>
          if m.id == messageId && touchUpdated then some now else m.updated)) := by
  have hkey : getConversation (replaceMessageFragment env state conversationId messageId
      fragmentId newFragment removePendingState touchUpdated now) (some conversationId)
      = (getConversation state (some conversationId)).map (fun c0 =>
          let messages := c0.messages.map (editMessageTransform env messageId
            (fun message =>
              match message.fragments.findIdx? (fun f => f.fId == fragmentId) with
              | none => none
              | some fragmentIndex =>
                some (message.fragments.mapIdx (fun index fragment =>
                  if index == fragmentIndex then newFragment else fragment)))
            removePendingState touchUpdated now)
          { c0 with
            messages := messages
            tokenCount := tokenFold messages
            updated := if touchUpdated then now else c0.updated }) := by
    rw [replaceMessageFragment, editMessage]
    exact getConversation_editConversationWith _ _ _ (fun c0 => rfl)
  rw [hkey, h1, Option.map_some', Option.map_some', Option.map_some']
  have hupd : ∀ m ∈ c.messages, m.id = messageId →
      (fun message =>
        match message.fragments.findIdx? (fun f => f.fId == fragmentId) with
        | none => none
        | some fragmentIndex =>
          some (message.fragments.mapIdx (fun index fragment =>
            if index == fragmentIndex then newFragment else fragment))) m
        = (none : Option (List DMessageFragment)) := by
    intro m hm h
    simp only
    rw [findIdx?_fId_eq_none fragmentId m.fragments (h2 m hm h)]
  constructor
  · congr 1
    dsimp only
    rw [List.map_map]
    apply List.map_congr_left
    intro m hm
    simp only [Function.comp_apply]
    by_cases h : m.id = messageId
    · exact editMessageTransform_fragments_of_none _ _ _ _ _ _ m (hupd m hm h)
    · rw [editMessageTransform_not_matching _ _ _ _ _ _ m h]
  · congr 1
    dsimp only
    rw [List.map_map]
    apply List.map_congr_left
    intro m hm
    simp only [Function.comp_apply]
    by_cases h : m.id = messageId
    · rw [editMessageTransform_updated_of_none _ _ _ _ _ _ m h (hupd m hm h)]
      have hb : (m.id == messageId) = true := beq_iff_eq.mpr h
      rw [hb, Bool.true_and]
    · rw [editMessageTransform_not_matching _ _ _ _ _ _ m h]
      have hb : (m.id == messageId) = false := by simp [h]
      rw [hb, Bool.false_and]
      simp

def fragW5 : DMessageFragment :=
  { fId := "f1", ft := "content", part := .text "hello" }

def msgW5 : DMessage :=
  { id := "m", fragments := [fragW5], tokenCount := 9, pendingIncomplete := false,
    created := 0, updated := some 1 }

def convW5 : DConversation :=
  { id := "c", messages := [msgW5], systemPurposeId := none, autoTitle := none,
    userTitle := none, userSymbol := none, tokenCount := 16, created := 0, updated := 0,
    abortController := none }

def stateW5 : ChatState := { conversations := [convW5] }

def newFragW5 : DMessageFragment :=
  { fId := "f2", ft := "content", part := .text "other" }

/-- Witness for C5: replacing the absent fragment id `"nope"` (with
`touchUpdated = false`) leaves the fragment list and the `updated`
timestamp as they were. -/
theorem replaceMessageFragment_missing_fragment_frame_witness :
    ((getConversation (replaceMessageFragment envW2 stateW5 "c" "m" "nope" newFragW5
          false false 9) (some "c")).map
        (fun c2 => c2.messages.map (fun m => m.fragments)))
      = some (convW5.messages.map (fun m => m.fragments))
    ∧ ((getConversation (replaceMessageFragment envW2 stateW5 "c" "m" "nope" newFragW5
          false false 9) (some "c")).map
        (fun c2 => c2.messages.map (fun m => m.updated)))
      = some (convW5.messages.map (fun m =>
          if m.id == "m" && false then some 9 else m.updated)) :=
  replaceMessageFragment_missing_fragment_frame envW2 stateW5 "c" "m" "nope" newFragW5
    false false 9 convW5 (by decide) (by decide)

/-! ### C3: append-then-delete round trip -/

/-- C3 (amended): `appendMessage` followed by `deleteMessage` with the same
(previously absent) message id always restores the message list, and
restores the aggregate token count provided the conversation satisfied
the fold invariant `tokenCount = 3 + Σ (4 + m.tokenCount)` before the
append; only the `updated` timestamp changes. -/
theorem appendMessage_deleteMessage_roundtrip (env : ChatEnv) (state : ChatState)
    (conversationId : String) (message : DMessage) (now1 now2 : Int) (c : DConversation)
    (h1 : getConversation state (some conversationId) = some c)
    (h2 : message.id ∉ c.messages.map (fun m => m.id))
    (h3 : c.tokenCount = 3 + (c.messages.map (fun m => 4 + m.tokenCount)).sum) :
    getConversation (deleteMessage (appendMessage env state conversationId message now1)
        conversationId message.id now2) (some conversationId)
      = some { c with updated := now2 } := by
  have hA : getConversation (appendMessage env state conversationId message now1)
      (some conversationId)
      = (getConversation state (some conversationId)).map (fun c0 =>
          let message := if message.pendingIncomplete then message
            else updateMessageTokenCount env message env.chatLLMId true
          let messages := c0.messages ++ [message]
          { c0 with
            messages := messages
            tokenCount := tokenFold messages
            updated := now1 }) := by
    rw [appendMessage]
    exact getConversation_editConversationWith _ _ _ (fun c0 => rfl)
  have hD : getConversation (deleteMessage (appendMessage env state conversationId message now1)
      conversationId message.id now2) (some conversationId)
      = (getConversation (appendMessage env state conversationId message now1)
          (some conversationId)).map (fun c0 =>
          let messages := c0.messages.filter (fun m => m.id != message.id)
          { c0 with
            messages := messages
            tokenCount := tokenFold messages
            updated := now2 }) := by
    rw [deleteMessage]
    exact getConversation_editConversationWith _ _ _ (fun c0 => rfl)
  have hmid : (if message.pendingIncomplete then message
      else updateMessageTokenCount env message env.chatLLMId true).id = message.id := by
    split
    · rfl
    · exact updateMessageTokenCount_id env message env.chatLLMId true
  have hfil : (c.messages ++ [if message.pendingIncomplete then message
      else updateMessageTokenCount env message env.chatLLMId true]).filter
        (fun m => m.id != message.id) = c.messages := by
    rw [List.filter_append]
    have ha : c.messages.filter (fun m => m.id != message.id) = c.messages := by
      apply List.filter_eq_self.mpr
      intro m hm
      simp only [bne_iff_ne, ne_eq]
      intro he
      exact h2 (he ▸ List.mem_map_of_mem (fun m => m.id) hm)
    have hb : ([if message.pendingIncomplete then message
        else updateMessageTokenCount env message env.chatLLMId true].filter
          (fun m => m.id != message.id)) = [] := by
      simp [hmid]
    rw [ha, hb, List.append_nil]
  rw [hD, hA, h1, Option.map_some', Option.map_some']
  congr 1
  dsimp only
  rw [hfil, (tokenFold_eq c.messages).trans h3.symm]

def envW3 : ChatEnv :=
  { chatLLMId := none, findLLM := fun _ => none, estimate := fun _ _ => 0 }

def convW3 : DConversation :=
  { id := "c", messages := [], systemPurposeId := none, autoTitle := none, userTitle := none,
    userSymbol := none, tokenCount := 0, created := 0, updated := 0, abortController := none }

def stateW3 : ChatState := { conversations := [convW3] }

def msgW3 : DMessage :=
  { id := "m", fragments := [], tokenCount := 0, pendingIncomplete := false,
    created := 0, updated := none }

/-- Counterexample for C3 as stated: on a conversation with no messages and
aggregate count 0 (the initial value of a fresh conversation), appending
message `"m"` and deleting it restores the (empty) message list but
leaves the aggregate at the fold value 3, not the pre-append 0. -/
theorem appendMessage_deleteMessage_no_restore_counterexample :
    msgW3.id ∉ convW3.messages.map (fun m => m.id)
    ∧ ((getConversation stateW3 (some "c")).map (fun c => c.tokenCount)) = some 0
    ∧ ((getConversation (deleteMessage (appendMessage envW3 stateW3 "c" msgW3 1) "c" "m" 2)
        (some "c")).map (fun c => c.messages)) = some []
    ∧ ((getConversation (deleteMessage (appendMessage envW3 stateW3 "c" msgW3 1) "c" "m" 2)
        (some "c")).map (fun c => c.tokenCount)) = some 3 :=
  ⟨by decide, by decide, by decide, by decide⟩

def msgW3a : DMessage :=
  { id := "k", fragments := [], tokenCount := 5, pendingIncomplete := false,
    created := 0, updated := none }

def convW3a : DConversation :=
  { id := "c", messages := [msgW3a], systemPurposeId := none, autoTitle := none,
    userTitle := none, userSymbol := none, tokenCount := 12, created := 0, updated := 0,
    abortController := none }

def stateW3a : ChatState := { conversations := [convW3a] }

def msgW3b : DMessage :=
  { id := "n", fragments := [], tokenCount := 4, pendingIncomplete := true,
    created := 0, updated := none }

/-- Witness for the amended C3 on a conversation that satisfies the fold
invariant (12 = 3 + (4 + 5)): the round trip restores messages and count,
changing only `updated`. -/
theorem appendMessage_deleteMessage_roundtrip_witness :
    getConversation (deleteMessage (appendMessage envW3 stateW3a "c" msgW3b 1) "c" "n" 2)
        (some "c")
      = some { convW3a with updated := 2 } :=
  appendMessage_deleteMessage_roundtrip envW3 stateW3a "c" msgW3b 1 2 convW3a
    (by decide) (by decide) (by decide)

/-! ### C1: setMessages token recomputation mode -/

/-- C1 (amended): `setMessages` replaces the message list wholesale and
recomputes the aggregate token count via the NON-forcing per-message
update (`forceUpdate = false`), so a message's cached non-zero count is
reused, not re-derived through the estimator; it also clears the
auto-title when the new list is empty, stamps the timestamp, and clears
the cancellation handle. -/
theorem setMessages_nonforcing_recompute (env : ChatEnv) (state : ChatState)
    (conversationId : String) (newMessages : List DMessage) (now : Int) (c : DConversation)
    (h1 : getConversation state (some conversationId) = some c) :
    getConversation (setMessages env state conversationId newMessages now) (some conversationId)
      = some { c with
          messages := newMessages.map (fun m =>
            updateMessageTokenCount env m env.chatLLMId false)
          autoTitle := if newMessages.length != 0 then c.autoTitle else none
          tokenCount := 3 + ((newMessages.map (fun m =>
            updateMessageTokenCount env m env.chatLLMId false)).map
              (fun m => 4 + m.tokenCount)).sum
          updated := now
          abortController := none } := by
  have hkey : getConversation (setMessages env state conversationId newMessages now)
      (some conversationId)
      = (getConversation state (some conversationId)).map (fun c0 =>
          let r := updateMessagesTokenCounts env newMessages false
          { c0 with
            messages := r.fst
            autoTitle := if newMessages.length != 0 then c0.autoTitle else none
            tokenCount := r.snd
            updated := now
            abortController := none }) := by
    rw [setMessages]
    exact getConversation_editConversationWith _ _ _ (fun c0 => rfl)
  rw [hkey, h1, Option.map_some']
  congr 1
  simp only [updateMessagesTokenCounts, sumFoldl_eq, zero_add]

def envW1 : ChatEnv :=
  { chatLLMId := some "llm", findLLM := fun _ => some "llm", estimate := fun _ _ => 7 }

def msgW1 : DMessage :=
  { id := "m", fragments := [], tokenCount := 5, pendingIncomplete := false,
    created := 0, updated := none }

def convW1 : DConversation :=
  { id := "c", messages := [], systemPurposeId := none, autoTitle := none, userTitle := none,
    userSymbol := none, tokenCount := 0, created := 0, updated := 0, abortController := none }

def stateW1 : ChatState := { conversations := [convW1] }

/-- Counterexample for C1 as stated: the configured estimator returns 7 for
every input, yet `setMessages` keeps the message's cached count 5 (the
estimator is not invoked for it), and the conversation aggregate becomes
12 = 3 + (4 + 5), not 14 = 3 + (4 + 7). -/
theorem setMessages_not_forced_counterexample :
    envW1.estimate msgW1.fragments "llm" = 7
    ∧ ((getConversation (setMessages envW1 stateW1 "c" [msgW1] 1) (some "c")).map
        (fun c => c.messages.map (fun m => m.tokenCount))) = some [5]
    ∧ ((getConversation (setMessages envW1 stateW1 "c" [msgW1] 1) (some "c")).map
        (fun c => c.tokenCount)) = some 12 :=
  ⟨rfl, by decide, by decide⟩

/-- Witness for the amended C1 at a concrete store. -/
theorem setMessages_nonforcing_recompute_witness :
    getConversation (setMessages envW1 stateW1 "c" [msgW1] 1) (some "c")
      = some { convW1 with
          messages := [msgW1].map (fun m =>
            updateMessageTokenCount envW1 m envW1.chatLLMId false)
          autoTitle := if ([msgW1] : List DMessage).length != 0 then convW1.autoTitle else none
          tokenCount := 3 + (([msgW1].map (fun m =>
            updateMessageTokenCount envW1 m envW1.chatLLMId false)).map
              (fun m => 4 + m.tokenCount)).sum
          updated := 1
          abortController := none } :=
  setMessages_nonforcing_recompute envW1 stateW1 "c" [msgW1] 1 convW1 (by decide)

/-! ### C4: deleteConversations never leaves an empty list -/

/-- C4: immediately after `deleteConversations` the conversation list is
non-empty: it is the filtered list when that is non-empty, and otherwise
exactly one fresh conversation seeded with the fallback persona id. -/
theorem deleteConversations_never_empty (freshId : String)
    (newConversationPersonaId : Option String) (now : Int) (state : ChatState)
    (conversationIds : List String) (h : state.conversations ≠ []) :
    (deleteConversations freshId newConversationPersonaId now state
        conversationIds).fst.conversations ≠ []
    ∧ (deleteConversations freshId newConversationPersonaId now state
        conversationIds).fst.conversations
      = (if (state.conversations.filter
            (fun c => !(conversationIds.contains c.id))).isEmpty
         then [createDConversation freshId newConversationPersonaId now]
         else state.conversations.filter (fun c => !(conversationIds.contains c.id))) := by
  have hd : (deleteConversations freshId newConversationPersonaId now state
      conversationIds).fst.conversations
      = (if (state.conversations.filter
            (fun c => !(conversationIds.contains c.id))).isEmpty
         then [createDConversation freshId newConversationPersonaId now]
         else state.conversations.filter (fun c => !(conversationIds.contains c.id))) := rfl
  refine ⟨?_, hd⟩
  rw [hd]
  by_cases hemp : (state.conversations.filter
      (fun c => !(conversationIds.contains c.id))).isEmpty
  · rw [if_pos hemp]
    simp
  · rw [if_neg hemp]
    intro hc
    rw [hc] at hemp
    exact hemp rfl

def convW4 : DConversation :=
  { id := "c", messages := [], systemPurposeId := none, autoTitle := none, userTitle := none,
    userSymbol := none, tokenCount := 0, created := 0, updated := 0, abortController := some 3 }

def stateW4 : ChatState := { conversations := [convW4] }

/-- Witness for C4: deleting the only conversation leaves a single fresh
conversation seeded with persona `"p"`. -/
theorem deleteConversations_never_empty_witness :
    (deleteConversations "f" (some "p") 9 stateW4 ["c"]).fst.conversations ≠ []
    ∧ (deleteConversations "f" (some "p") 9 stateW4 ["c"]).fst.conversations
      = (if (stateW4.conversations.filter
            (fun c => !((["c"] : List String).contains c.id))).isEmpty
         then [createDConversation "f" (some "p") 9]
         else stateW4.conversations.filter (fun c => !((["c"] : List String).contains c.id))) :=
  deleteConversations_never_empty "f" (some "p") 9 stateW4 ["c"] (by decide)

/-! ### C6: branchConversation -/

theorem enumFrom_freshIds (freshMId : Nat → String) :
    ∀ (l : List DMessage) (i : Nat),
      ((l.enumFrom i).map (fun p => { p.2 with id := freshMId p.1 })).map (fun m => m.id)
        = (List.range' i l.length).map freshMId := by
  intro l
  induction l with
  | nil => intro i; rfl
  | cons m rest ih =>
    intro i
    rw [List.enumFrom_cons, List.map_cons, List.map_cons, List.length_cons,
      List.range'_succ, List.map_cons, ih]

theorem takeThrough_length (mid : String) (l : List DMessage) :
    (takeThrough mid l).length
      = if mid ∈ l.map (fun m => m.id)
        then (l.map (fun m => m.id)).indexOf mid + 1
        else l.length := by
  induction l with
  | nil => simp [takeThrough]
  | cons m rest ih =>
    by_cases h : m.id = mid
    · rw [takeThrough, if_pos (beq_iff_eq.mpr h)]
      have hmem : mid ∈ (m :: rest).map (fun m => m.id) := by
        simp [h.symm]
      rw [if_pos hmem, List.map_cons, List.indexOf_cons_eq _ h]
      simp
    · rw [takeThrough, if_neg (by simp [h]), List.length_cons, ih, List.map_cons]
      by_cases hmem : mid ∈ rest.map (fun m => m.id)
      · rw [if_pos hmem, if_pos (List.mem_cons_of_mem _ hmem),
          List.indexOf_cons_ne _ h]
      · have hnm : mid ∉ (m.id :: rest.map (fun m => m.id)) := by
          rw [List.mem_cons]
          rintro (he | he)
          · exact h he.symm
          · exact hmem he
        rw [if_neg hmem, if_neg hnm, List.length_cons]

/-- C6: `branchConversation` returns `null` exactly when the source
conversation is not found (in which case the store is unchanged);
otherwise the duplicate — carrying the freshly supplied conversation id,
message ids taken from the fresh-id supply, and all messages up to and
including the given message id (all of them when the id is `null`) — is
inserted at index 0 and its id is returned. -/
theorem branchConversation_spec (freshCId : String) (freshMId : Nat → String)
    (state : ChatState) (conversationId : String) (messageId : Option String)
    (c : DConversation) :
    ((branchConversation freshCId freshMId state conversationId messageId).snd = none
      ↔ getConversation state (some conversationId) = none)
    ∧ (branchConversation freshCId freshMId state conversationId messageId).fst.conversations
      = (match getConversation state (some conversationId) with
         | none => state.conversations
         | some c0 => duplicateCConversation freshCId freshMId c0 messageId
             :: state.conversations)
    ∧ (branchConversation freshCId freshMId state conversationId messageId).snd
      = (getConversation state (some conversationId)).map
          (fun c0 => (duplicateCConversation freshCId freshMId c0 messageId).id)
    ∧ (duplicateCConversation freshCId freshMId c messageId).id = freshCId
    ∧ (duplicateCConversation freshCId freshMId c messageId).messages.map (fun m => m.id)
      = (List.range
          (duplicateCConversation freshCId freshMId c messageId).messages.length).map freshMId
    ∧ (duplicateCConversation freshCId freshMId c messageId).messages.length
      = (match messageId with
         | none => c.messages.length
         | some mid =>
           if mid ∈ c.messages.map (fun m => m.id)
           then (c.messages.map (fun m => m.id)).indexOf mid + 1
           else c.messages.length) := by
  refine ⟨?_, ?_, ?_, ?_, ?_, ?_⟩
  · rw [branchConversation, getConversation]
    cases hfind : state.conversations.find? (fun c0 => c0.id == conversationId) <;> simp
  · rw [branchConversation, getConversation]
    cases hfind : state.conversations.find? (fun c0 => c0.id == conversationId) <;> rfl
  · rw [branchConversation, getConversation]
    cases hfind : state.conversations.find? (fun c0 => c0.id == conversationId) <;> rfl
  · rfl
  · rw [duplicateCConversation.eq_def]
    dsimp only
    rw [List.enum]
    have hlen : ∀ (kept : List DMessage),
        ((kept.enumFrom 0).map (fun p => { p.2 with id := freshMId p.1 })).length
          = kept.length := by
      intro kept
      rw [List.length_map, List.enumFrom_length]
    rw [hlen, enumFrom_freshIds freshMId _ 0, List.range_eq_range']
  · rw [duplicateCConversation.eq_def]
    dsimp only
    cases messageId with
    | none =>
      rw [List.length_map, List.enum_length]
    | some mid =>
      rw [List.length_map, List.enum_length, takeThrough_length]

/-! ### C7: importConversation with a clashing id -/

/-- C7: importing a conversation whose id clashes with an existing one
cancels the existing conversation's in-flight handle; with `preventClash`
the incoming conversation gets the freshly generated id, otherwise it
keeps its own; the result lands at the front of the list with every prior
conversation of the (possibly reassigned) id removed; the stored message
token counts are force-recomputed and the aggregate is their fold; the
(possibly reassigned) id is returned. -/
theorem importConversation_clash_spec (env : ChatEnv) (freshId : String) (state : ChatState)
    (conversation : DConversation) (preventClash : Bool) (ex : DConversation)
    (hex : state.conversations.find? (fun c => c.id == conversation.id) = some ex) :
    (importConversation env freshId state conversation preventClash).snd.fst
      = ex.abortController
    ∧ (importConversation env freshId state conversation preventClash).snd.snd
      = (if preventClash then freshId else conversation.id)
    ∧ ((importConversation env freshId state conversation preventClash).fst.conversations.head?).map
        (fun c0 => c0.id)
      = some (importConversation env freshId state conversation preventClash).snd.snd
    ∧ (importConversation env freshId state conversation preventClash).fst.conversations.tail
      = state.conversations.filter (fun c =>
          c.id != (importConversation env freshId state conversation preventClash).snd.snd)
    ∧ ((importConversation env freshId state conversation preventClash).fst.conversations.head?).map
        (fun c0 => c0.messages.map (fun m => m.tokenCount))
      = some (conversation.messages.map (fun m =>
          (updateMessageTokenCount env m env.chatLLMId true).tokenCount))
    ∧ ((importConversation env freshId state conversation preventClash).fst.conversations.head?).map
        (fun c0 => c0.tokenCount)
      = some (3 + (conversation.messages.map (fun m =>
          4 + (updateMessageTokenCount env m env.chatLLMId true).tokenCount)).sum) := by
  have himp : importConversation env freshId state conversation preventClash
      = (let conversation2 := if preventClash then { conversation with id := freshId }
           else conversation
         let updated := conversation.messages.map (fun m =>
           updateMessageTokenCount env m env.chatLLMId true)
         ({ conversations := { conversation2 with
              messages := updated
              tokenCount := 3 + updated.foldl (fun sum m => 4 + m.tokenCount + sum) 0 }
              :: state.conversations.filter (fun c => c.id != conversation2.id) },
          ex.abortController,
          conversation2.id)) := by
    simp only [importConversation]
    rw [hex]
    cases preventClash <;> rfl
  rw [himp]
  cases preventClash with
  | true =>
    refine ⟨rfl, rfl, rfl, rfl, ?_, ?_⟩
    · dsimp only [List.head?_cons, Option.map_some']
      rw [List.map_map]
      rfl
    · dsimp only [List.head?_cons, Option.map_some']
      rw [sumFoldl_eq, List.map_map]
      simp only [zero_add]
      rfl
  | false =>
    refine ⟨rfl, rfl, rfl, rfl, ?_, ?_⟩
    · dsimp only [List.head?_cons, Option.map_some']
      rw [List.map_map]
      rfl
    · dsimp only [List.head?_cons, Option.map_some']
      rw [sumFoldl_eq, List.map_map]
      simp only [zero_add]
      rfl

def convW7ex : DConversation :=
  { id := "c", messages := [], systemPurposeId := none, autoTitle := none, userTitle := none,
    userSymbol := none, tokenCount := 0, created := 0, updated := 0, abortController := some 42 }

def stateW7 : ChatState := { conversations := [convW7ex] }

def msgW7 : DMessage :=
  { id := "m", fragments := [], tokenCount := 5, pendingIncomplete := false, created := 0,
    updated := none }

def convW7in : DConversation :=
  { id := "c", messages := [msgW7], systemPurposeId := none, autoTitle := none,
    userTitle := none, userSymbol := none, tokenCount := 0, created := 1, updated := 1,
    abortController := none }

/-- Witness for C7: importing over the existing handle-carrying conversation
`"c"` with `preventClash = false` reports handle 42 as cancelled, keeps id
`"c"`, and moves the recomputed conversation to the front alone. -/
theorem importConversation_clash_spec_witness :
    (importConversation envW1 "g" stateW7 convW7in false).snd.fst = convW7ex.abortController
    ∧ (importConversation envW1 "g" stateW7 convW7in false).snd.snd
      = (if false then "g" else convW7in.id)
    ∧ ((importConversation envW1 "g" stateW7 convW7in false).fst.conversations.head?).map
        (fun c0 => c0.id)
      = some (importConversation envW1 "g" stateW7 convW7in false).snd.snd
    ∧ (importConversation envW1 "g" stateW7 convW7in false).fst.conversations.tail
      = stateW7.conversations.filter (fun c =>
          c.id != (importConversation envW1 "g" stateW7 convW7in false).snd.snd)
    ∧ ((importConversation envW1 "g" stateW7 convW7in false).fst.conversations.head?).map
        (fun c0 => c0.messages.map (fun m => m.tokenCount))
      = some (convW7in.messages.map (fun m =>
          (updateMessageTokenCount envW1 m envW1.chatLLMId true).tokenCount))
    ∧ ((importConversation envW1 "g" stateW7 convW7in false).fst.conversations.head?).map
        (fun c0 => c0.tokenCount)
      = some (3 + (convW7in.messages.map (fun m =>
          4 + (updateMessageTokenCount envW1 m envW1.chatLLMId true).tokenCount)).sum) :=
  importConversation_clash_spec envW1 "g" stateW7 convW7in false convW7ex (by decide)

/-! ### C9: partialize / onRehydrateStorage round trip -/

theorem fixupFragment_fId_ne (agiId : Nat → String) (hAgi : ∀ k, agiId k ≠ "")
    (n : Nat) (f : DMessageFragment) :
    (fixupFragment agiId n f).fst.fId ≠ "" := by
  rcases f with ⟨fid, ftv, part⟩
  unfold fixupFragment
  cases part <;> dsimp only <;> repeat' split <;> simp_all

theorem fixupFragmentList_fId_ne (agiId : Nat → String) (hAgi : ∀ k, agiId k ≠ "") :
    ∀ (l : List DMessageFragment) (n : Nat),
      ∀ f ∈ (fixupFragmentList agiId n l).fst, f.fId ≠ "" := by
  intro l
  induction l with
  | nil =>
    intro n f hf
    simp [fixupFragmentList] at hf
  | cons f0 rest ih =>
    intro n f hf
    simp only [fixupFragmentList, List.mem_cons] at hf
    rcases hf with rfl | hf
    · exact fixupFragment_fId_ne agiId hAgi n f0
    · exact ih _ f hf

theorem replacePhFragment_fId_ne (agiId : Nat → String) (hAgi : ∀ k, agiId k ≠ "")
    (n : Nat) (f : DMessageFragment) (hf : f.fId ≠ "") :
    (replacePhFragment agiId n f).fst.fId ≠ "" := by
  rcases f with ⟨fid, ftv, part⟩
  unfold replacePhFragment
  cases hct : isContentFragment ⟨fid, ftv, part⟩ <;> cases part <;>
    simp_all [createErrorContentFragment]

theorem replacePhFragments_fId_ne (agiId : Nat → String) (hAgi : ∀ k, agiId k ≠ "") :
    ∀ (l : List DMessageFragment) (n : Nat), (∀ f ∈ l, f.fId ≠ "") →
      ∀ f ∈ (replacePhFragments agiId n l).fst, f.fId ≠ "" := by
  intro l
  induction l with
  | nil =>
    intro n _ f hf
    simp [replacePhFragments] at hf
  | cons f0 rest ih =>
    intro n hl f hf
    simp only [replacePhFragments, List.mem_cons] at hf
    rcases hf with rfl | hf
    · exact replacePhFragment_fId_ne agiId hAgi n f0 (hl f0 (List.mem_cons_self f0 rest))
    · exact ih _ (fun g hg => hl g (List.mem_cons_of_mem f0 hg)) f hf

theorem rehydrateMessage_fragments_ok (agiId : Nat → String) (hAgi : ∀ k, agiId k ≠ "")
    (n : Nat) (m : DMessage) :
    ∀ f ∈ (rehydrateMessage agiId n m).fst.fragments, f.fId ≠ "" := by
  intro f hf
  simp only [rehydrateMessage] at hf
  exact replacePhFragments_fId_ne agiId hAgi _ _
    (fixupFragmentList_fId_ne agiId hAgi m.fragments n) f hf

theorem rehydrateMessages_fragments_ok (agiId : Nat → String) (hAgi : ∀ k, agiId k ≠ "") :
    ∀ (l : List DMessage) (n : Nat), ∀ m ∈ (rehydrateMessages agiId n l).fst,
      ∀ f ∈ m.fragments, f.fId ≠ "" := by
  intro l
  induction l with
  | nil =>
    intro n m hm
    simp [rehydrateMessages] at hm
  | cons m0 rest ih =>
    intro n m hm
    simp only [rehydrateMessages, List.mem_cons] at hm
    rcases hm with rfl | hm
    · exact rehydrateMessage_fragments_ok agiId hAgi n m0
    · exact ih _ m hm

theorem rehydrateConversations_ok (agiId : Nat → String) (hAgi : ∀ k, agiId k ≠ "") :
    ∀ (l : List DConversation) (n : Nat), ∀ c ∈ (rehydrateConversations agiId n l).fst,
      c.abortController = none ∧ ∀ m ∈ c.messages, ∀ f ∈ m.fragments, f.fId ≠ "" := by
  intro l
  induction l with
  | nil =>
    intro n c hc
    simp [rehydrateConversations] at hc
  | cons c0 rest ih =>
    intro n c hc
    simp only [rehydrateConversations, List.mem_cons] at hc
    rcases hc with rfl | hc
    · refine ⟨rfl, ?_⟩
      intro m hm
      exact rehydrateMessages_fragments_ok agiId hAgi c0.messages n m hm
    · exact ih _ c hc

/-- C9: `partialize` (strip the handle) followed by `onRehydrateStorage`
yields a state in which every conversation's cancellation handle is null
and every fragment of every message has a non-empty `fId` (under the id
generator's contract of producing non-empty ids). -/
theorem partialize_rehydrate_roundtrip (agiId : Nat → String) (state : ChatState)
    (hAgi : ∀ k, agiId k ≠ "") :
    handlesCleared (onRehydrateStorage agiId (partialize state)) = true
    ∧ fragmentIdsNonEmpty (onRehydrateStorage agiId (partialize state)) = true := by
  constructor
  · rw [handlesCleared, List.all_eq_true]
    intro c hc
    rw [onRehydrateStorage] at hc
    have hok := (rehydrateConversations_ok agiId hAgi _ 0 c hc).1
    simp [hok]
  · rw [fragmentIdsNonEmpty, List.all_eq_true]
    intro c hc
    rw [onRehydrateStorage] at hc
    rw [List.all_eq_true]
    intro m hm
    rw [List.all_eq_true]
    intro f hf
    have hok := (rehydrateConversations_ok agiId hAgi _ 0 c hc).2 m hm f hf
    simp [hok]

def fragW9missing : DMessageFragment :=
  { fId := "", ft := "content", part := .text "kept" }

def fragW9ph : DMessageFragment :=
  { fId := "p1", ft := "content", part := .ph "streaming" }

def msgW9 : DMessage :=
  { id := "m", fragments := [fragW9missing, fragW9ph], tokenCount := 3,
    pendingIncomplete := true, created := 0, updated := none }

def convW9 : DConversation :=
  { id := "c", messages := [msgW9], systemPurposeId := none, autoTitle := none,
    userTitle := none, userSymbol := none, tokenCount := 10, created := 0, updated := 0,
    abortController := some 7 }

def stateW9 : ChatState := { conversations := [convW9] }

/-- Witness for C9 on a store holding a live handle, a fragment with a
missing id and a placeholder fragment. -/
theorem partialize_rehydrate_roundtrip_witness :
    handlesCleared (onRehydrateStorage (fun _ => "fresh") (partialize stateW9)) = true
    ∧ fragmentIdsNonEmpty (onRehydrateStorage (fun _ => "fresh") (partialize stateW9)) = true :=
  partialize_rehydrate_roundtrip (fun _ => "fresh") stateW9
    (fun k => by show ("fresh" : String) ≠ ""; decide)
